import Mathlib

/-!
Verification of the query-construction and paginated-resolution engine of the
gitlab-api client (src/src/gitlab.rs, src/src/merge_requests/mod.rs,
src/src/projects/mod.rs, src/src/projects/id.rs).

The Rust code is embedded shallowly: each Rust function becomes a Lean
function over explicit data.  The HTTP transport, JSON decoding and the `url`
crate are external collaborators of the repository; where their behaviour is
needed it is modelled explicitly (see the doc comments on the corresponding
definitions).  Fallible Rust functions returning `Result<T>` become
`Except String T`; loops that the Rust code runs without a static bound are
embedded with an explicit fuel parameter, `none` meaning fuel exhaustion.
-/

namespace GitlabApi

/-- Embeds `ListingSort` (src/src/lib, shared by all listers); serialized as
"asc"/"desc" in `build_query` (src/src/merge_requests/mod.rs lines 264-268). -/
inductive ListingSort
  | Asc
  | Desc
deriving DecidableEq

/-- Serialization of `ListingSort` used by `build_query`
(src/src/merge_requests/mod.rs lines 264-268). -/
def sortStr : ListingSort → String
  | .Asc => "asc"
  | .Desc => "desc"

/-- Embeds `ListingVisibility` (shared enum), serialized in
`projects::Listing::build_query` (src/src/projects/mod.rs lines 279-283). -/
inductive ListingVisibility
  | Public
  | Internal
  | Private
deriving DecidableEq

/-- Serialization of `ListingVisibility` (src/src/projects/mod.rs lines 279-283). -/
def visibilityStr : ListingVisibility → String
  | .Public => "public"
  | .Internal => "internal"
  | .Private => "private"

/-- The pair `(query, split_char)` threaded through the Rust `build_query`
functions: `query` is the string built so far, `sp` is the current value of
the mutable `split_char` local ("" initially, "&" once a fragment was pushed). -/
structure QB where
  q : String
  sp : String

/-- Embeds one `self.internal.<field>.map(|v| { query.push_str(split_char);
split_char = &amp_char; query.push_str(<fragment>); })` block from the Rust
`build_query` functions: on `some f` it appends the split char and then the
fragment, and sets the split char to "&"; on `none` it does nothing. -/
def pushFragment (st : QB) : Option String → QB
  | none => st
  | some f => ⟨st.q ++ st.sp ++ f, "&"⟩

namespace MergeRequests

/-- Embeds `merge_requests::State` (src/src/merge_requests/mod.rs lines 40-50). -/
inductive State
  | Merged
  | Opened
  | Closed
  | All
deriving DecidableEq

/-- Serialization of `State` in `build_query` (src/src/merge_requests/mod.rs
lines 241-246). -/
def stateStr : State → String
  | .Merged => "merged"
  | .Opened => "opened"
  | .Closed => "closed"
  | .All => "all"

/-- Embeds `merge_requests::ListingOrderBy` (src/src/merge_requests/mod.rs
lines 63-69). -/
inductive ListingOrderBy
  | CreatedAt
  | UpdatedAt
deriving DecidableEq

/-- Serialization of `ListingOrderBy` in `build_query`
(src/src/merge_requests/mod.rs lines 254-257). -/
def orderByStr : ListingOrderBy → String
  | .CreatedAt => "created_at"
  | .UpdatedAt => "updated_at"

/-- Embeds `MergeRequestsListerInternal` (src/src/merge_requests/mod.rs
lines 74-84): the four optional filters of the merge-requests lister, in
declaration order. -/
structure MergeRequestsListerInternal where
  iid : Option (List Int)
  state : Option State
  order_by : Option ListingOrderBy
  sort : Option ListingSort
deriving DecidableEq

/-- Embeds the `for iid in iid` loop of `build_query`
(src/src/merge_requests/mod.rs lines 226-232): appends
`array_split_char ++ "iid[]=" ++ iid` for each element, where
`array_split_char` starts as "" and becomes "&" after the first element. -/
def iidArrayLoop : List Int → String → String → String
  | [], q, _ => q
  | v :: rest, q, sp => iidArrayLoop rest (q ++ sp ++ "iid[]=" ++ toString v) "&"

/-- Embeds the iid fragment of `build_query` (src/src/merge_requests/mod.rs
lines 222-233): `"iid=v"` when the vector has exactly one element, otherwise
the `iid[]=` loop (which appends nothing for an empty vector). -/
def iidFragment : List Int → String
  | [v] => "iid=" ++ toString v
  | l => iidArrayLoop l "" ""

/-- Embeds `MergeRequestsLister::build_query` without the lister wrapper
(src/src/merge_requests/mod.rs lines 196-272): base path
`projects/{id}/merge_requests`, a "?" exactly when at least one filter is
`Some`, then the present fragments pushed in declaration order
(iid, state, order_by, sort) separated by the mutable split char. -/
def build_query (id : Int) (i : MergeRequestsListerInternal) : String :=
  let q0 := "projects/" ++ toString id ++ "/merge_requests"
  let q1 := q0 ++ (match i.iid, i.state, i.order_by, i.sort with
    | none, none, none, none => ""
    | _, _, _, _ => "?")
  let st : QB := ⟨q1, ""⟩
  let st := pushFragment st (i.iid.map iidFragment)
  let st := pushFragment st (i.state.map (fun s => "state=" ++ stateStr s))
  let st := pushFragment st (i.order_by.map (fun o => "order_by=" ++ orderByStr o))
  let st := pushFragment st (i.sort.map (fun s => "sort=" ++ sortStr s))
  st.q

end MergeRequests

namespace Projects

/-- Embeds `projects::ListingOrderBy` (src/src/projects/mod.rs lines 142-150). -/
inductive ListingOrderBy
  | Id
  | Name
  | Path
  | CreatedAt
  | UpdatedAt
  | LastActivityAt
deriving DecidableEq

/-- Serialization of `projects::ListingOrderBy` in `Listing::build_query`
(src/src/projects/mod.rs lines 291-298). -/
def listingOrderByStr : ListingOrderBy → String
  | .Id => "id"
  | .Name => "name"
  | .Path => "path"
  | .CreatedAt => "created_at"
  | .UpdatedAt => "updated_at"
  | .LastActivityAt => "last_activity_at"

/-- Embeds `projects::Listing` (src/src/projects/mod.rs lines 193-207): the
optional filters of the projects lister plus the plain-string `search`
filter, in declaration order. -/
structure Listing where
  archived : Option Bool
  visibility : Option ListingVisibility
  order_by : Option ListingOrderBy
  sort : Option ListingSort
  search : String
  simple : Option Bool
deriving DecidableEq

/-- Embeds `Listing::new()` = `Default::default()` (src/src/projects/mod.rs
lines 212-214): every option unset and the search string empty. -/
def Listing.new : Listing := ⟨none, none, none, none, "", none⟩

/-- Embeds `projects::Listing::build_query` (src/src/projects/mod.rs lines
242-333): base path "projects", a "?" exactly when some filter is present or
the search string is nonempty, then the present fragments pushed in
declaration order (archived, visibility, order_by, sort, search, simple). -/
def Listing.build_query (l : Listing) : String :=
  let q0 := "projects"
  let q1 := q0 ++ (match l.archived, l.visibility, l.order_by, l.sort,
                         l.search.isEmpty, l.simple with
    | none, none, none, none, true, none => ""
    | _, _, _, _, _, _ => "?")
  let st : QB := ⟨q1, ""⟩
  let st := pushFragment st (l.archived.map
    (fun a => if a then "archived=true" else "archived=false"))
  let st := pushFragment st (l.visibility.map
    (fun v => "visibility=" ++ visibilityStr v))
  let st := pushFragment st (l.order_by.map
    (fun o => "order_by=" ++ listingOrderByStr o))
  let st := pushFragment st (l.sort.map (fun s => "sort=" ++ sortStr s))
  let st := pushFragment st
    (if l.search.isEmpty then none else some ("search=" ++ l.search))
  let st := pushFragment st (l.simple.map
    (fun s => if s then "simple=true" else "simple=false"))
  st.q

/-- Embeds `projects::ListingId` (declared in the projects module, used at
src/src/projects/id.rs lines 70-73): a project referenced either by its
internal id or by its "namespace/project" path. -/
inductive ListingId
  | Id (id : Int)
  | NamespaceProject (s : String)
deriving DecidableEq

/-- Character-level helper for `replaceSlash`: replaces each '/' by the three
characters "%2F" and keeps every other character. -/
def replaceSlashChars : List Char → List Char
  | [] => []
  | c :: cs => (if c = '/' then ['%', '2', 'F'] else [c]) ++ replaceSlashChars cs

/-- Models Rust `s.replace("/", "%2F")` (src/src/projects/id.rs line 72).
The pattern is the single character '/', so `str::replace` rewrites the
string character by character, replacing each '/' occurrence by "%2F". -/
def replaceSlash (s : String) : String := ⟨replaceSlashChars s.data⟩

/-- Embeds `projects::id::ProjectsLister::build_query`
(src/src/projects/id.rs lines 66-77): "projects/" followed by the decimal id,
or by the namespace/project path with '/' percent-encoded as "%2F". -/
def idBuildQuery : ListingId → String
  | .Id id => "projects/" ++ toString id
  | .NamespaceProject s => "projects/" ++ replaceSlash s

end Projects

/-- Embeds `API_VERSION` (src/src/gitlab.rs line 19). -/
def API_VERSION : Nat := 3

/-- The parsed URL stored in a `GitLab` value (the relevant components of the
`url::Url` built by `validate_url`, src/src/gitlab.rs lines 62-65): scheme,
host, and the port as the `url` crate stores it, `none` when the port is the
scheme's default port.  (The path is always "/api/v{API_VERSION}/".) -/
structure Url where
  scheme : String
  host : String
  port : Option Nat
deriving DecidableEq

/-- Models `url::Url::set_port` normalization (external `url` crate, exercised
by src/src/gitlab.rs line 65 and the repo's Debug tests): the default port of
the scheme (443 for https, 80 for http) is stored as "no port", any other
port is kept. -/
def urlSetPort (scheme : String) (port : Nat) : Option Nat :=
  if (scheme = "https" ∧ port = 443) ∨ (scheme = "http" ∧ port = 80) then none
  else some port

/-- Host characters accepted by the `urlParseHost` model: lowercase ASCII
letters, digits, '.' and '-'. -/
def validHostChar (c : Char) : Bool :=
  (c.isLower || c.isDigit) || c = '.' || c = '-'

/-- Models parsing "{scheme}://{domain}/api/v3/" with the external `url`
crate and reading back `host_str()` (src/src/gitlab.rs lines 62-75): for a
nonempty domain made of lowercase letters, digits, dots and hyphens the parse
succeeds and the host equals the domain verbatim; other domains (empty, or
containing separators or uppercase letters the crate would reject or
normalize) are modelled as failing. -/
def urlParseHost (domain : String) : Option String :=
  if domain.isEmpty then none
  else if domain.data.all validHostChar then some domain else none

/-- Embeds `validate_url` (src/src/gitlab.rs lines 45-78): reject a domain
whose first '.'-occurrence is at index 0 — `domain.find('.') == Some(0)`,
equivalently the first character is '.' — reject a domain whose last
character is '.' (`domain.ends_with('.')` with a one-character pattern),
then parse the URL and check that the parsed host equals the domain; on
success return the URL with the port normalized. -/
def validate_url (scheme domain : String) (port : Nat) : Except String Url :=
  if domain.data.head? = some '.' then
    .error ("invalid domain: '" ++ domain ++ "' cannot start with a dot")
  else if domain.data.getLast? = some '.' then
    .error ("invalid domain: '" ++ domain ++ "' cannot end with a dot")
  else
    match urlParseHost domain with
    | none => .error "failure to get URL's hostname"
    | some h =>
      if h ≠ domain then .error ("invalid hostname '" ++ domain ++ "'")
      else .ok ⟨scheme, domain, urlSetPort scheme port⟩

/-- Embeds the `GitLab` client struct (src/src/gitlab.rs lines 24-28) without
the `hyper::Client` transport handle (external collaborator). -/
structure GitLab where
  url : Url
  private_token : String
deriving DecidableEq

/-- Embeds `GitLab::_new` (src/src/gitlab.rs lines 81-104) without the proxy /
transport setup: fail if the private token is not exactly 20 characters,
then validate the URL, then build the client value. -/
def GitLab._new (scheme domain : String) (port : Nat) (private_token : String) :
    Except String GitLab :=
  if private_token.length ≠ 20 then
    .error ("private token should be a 20 characters string (not "
      ++ toString private_token.length ++ ")")
  else
    match validate_url scheme domain port with
    | .error e => .error ("invalid URL: " ++ e)
    | .ok url => .ok ⟨url, private_token⟩

/-- Embeds `GitLab::new` (src/src/gitlab.rs lines 111-113). -/
def GitLab.new (domain private_token : String) : Except String GitLab :=
  GitLab._new "https" domain 443 private_token

/-- Embeds `GitLab::new_insecure` (src/src/gitlab.rs lines 106-109). -/
def GitLab.new_insecure (domain private_token : String) : Except String GitLab :=
  GitLab._new "http" domain 80 private_token

/-- Embeds `impl fmt::Debug for GitLab` (src/src/gitlab.rs lines 32-43): the
scheme, domain and port are printed, and a fixed twenty-'X' mask is printed
in place of the private token.  In the embedding a validated URL always has a
host, so the "bad hostname provided" fallback of `Url::domain()` is not
reachable. -/
def GitLab.debugFmt (g : GitLab) : String :=
  "GitLab \x7b scheme: " ++ g.url.scheme ++ ", domain: " ++ g.url.host
    ++ ", port: "
    ++ (match g.url.port with
        | some p => toString p
        | none => "no port provided")
    ++ ", private_token: XXXXXXXXXXXXXXXXXXXX \x7d"

/-- String form of the base URL held by the client,
"{scheme}://{host}[:{port}]/api/v{API_VERSION}/" (built by `validate_url`,
src/src/gitlab.rs line 62, with the port of line 65). -/
def urlToString (u : Url) : String :=
  u.scheme ++ "://" ++ u.host
    ++ (match u.port with
        | none => ""
        | some p => ":" ++ toString p)
    ++ "/api/v" ++ toString API_VERSION ++ "/"

/-- Embeds `GitLab::build_url` (src/src/gitlab.rs lines 141-153).  The
external `url` crate operations are modelled at string level: joining the
relative `query` onto the base URL (whose path "/api/v{API_VERSION}/" ends
with a slash and has no query part) appends `query` to the base string, and
`query_pairs_mut().append_pair("private_token", token)` appends
"private_token={token}" behind "&" when the joined URL already has a query
component (i.e. when `query` contains a '?') and behind "?" otherwise.  The
percent-encoding `append_pair` applies to its value is the identity on the
alphanumeric tokens the client accepts. -/
def GitLab.build_url (g : GitLab) (query : String) : String :=
  urlToString g.url ++ query
    ++ (if query.data.contains '?' then "&" else "?")
    ++ "private_token=" ++ g.private_token

/-- Embeds the URL construction of `GitLab::get` (src/src/gitlab.rs lines
162-172): build the URL for the query, then append "&page={page}" when a page
is given, then append "&per_page={per_page}" when a page size is given. -/
def GitLab.requestUrl (g : GitLab) (query : String) (page per_page : Option Nat) :
    String :=
  let url := g.build_url query
  let url := match page with
    | none => url
    | some p => url ++ "&page=" ++ toString p
  match per_page with
  | none => url
  | some pp => url ++ "&per_page=" ++ toString pp

/-- Embeds the rest of `GitLab::get` (src/src/gitlab.rs lines 174-194) with
the HTTP transport and JSON decode abstracted as a `fetch` collaborator from
full request URLs to decoded results. -/
def GitLab.get {α : Type} (g : GitLab) (fetch : String → Except String α)
    (query : String) (page per_page : Option Nat) : Except String α :=
  fetch (g.requestUrl query page per_page)

/-- Embeds the `MergeRequestsLister` struct (src/src/merge_requests/mod.rs
lines 123-128): the client, the immutable parent project id fixed at
construction, and the mutable filter set. -/
structure MergeRequestsLister where
  gl : GitLab
  id : Int
  internal : MergeRequests.MergeRequestsListerInternal
deriving DecidableEq

/-- Embeds `MergeRequestsLister::new` (src/src/merge_requests/mod.rs lines
152-163): every filter unset. -/
def MergeRequestsLister.new (gl : GitLab) (id : Int) : MergeRequestsLister :=
  ⟨gl, id, ⟨none, none, none, none⟩⟩

/-- Embeds the `iid` setter (src/src/merge_requests/mod.rs lines 172-179). -/
def MergeRequestsLister.iid (l : MergeRequestsLister) (iid : List Int) :
    MergeRequestsLister :=
  { l with internal := { l.internal with iid := some iid } }

/-- Embeds the `state` setter (src/src/merge_requests/mod.rs lines 180-183). -/
def MergeRequestsLister.state (l : MergeRequestsLister) (state : MergeRequests.State) :
    MergeRequestsLister :=
  { l with internal := { l.internal with state := some state } }

/-- Embeds the `order_by` setter (src/src/merge_requests/mod.rs lines 184-187). -/
def MergeRequestsLister.order_by (l : MergeRequestsLister)
    (order_by : MergeRequests.ListingOrderBy) : MergeRequestsLister :=
  { l with internal := { l.internal with order_by := some order_by } }

/-- Embeds the `sort` setter (src/src/merge_requests/mod.rs lines 188-191). -/
def MergeRequestsLister.sort (l : MergeRequestsLister) (sort : ListingSort) :
    MergeRequestsLister :=
  { l with internal := { l.internal with sort := some sort } }

/-- Embeds `MergeRequestsLister::build_query` (src/src/merge_requests/mod.rs
lines 195-273). -/
def MergeRequestsLister.build_query (l : MergeRequestsLister) : String :=
  MergeRequests.build_query l.id l.internal

/-- Embeds `Lister::list` for `MergeRequestsLister`
(src/src/merge_requests/mod.rs lines 133-138): one GET of the built query
with no pagination parameters. -/
def MergeRequestsLister.list {α : Type} (l : MergeRequestsLister)
    (fetch : String → Except String α) : Except String α :=
  l.gl.get fetch l.build_query none none

/-- Embeds `Lister::list_paginated` for `MergeRequestsLister`
(src/src/merge_requests/mod.rs lines 141-146): one GET of the built query
with the given page and page size.  The Rust method takes `&self`; the
embedding returns the lister value the caller continues with as the second
component, which is the receiver unchanged. -/
def MergeRequestsLister.list_paginated {α : Type} (l : MergeRequestsLister)
    (fetch : String → Except String α) (page per_page : Nat) :
    Except String α × MergeRequestsLister :=
  (l.gl.get fetch l.build_query (some page) (some per_page), l)

/-- Embeds the `namespace` component of a `Project` record (only the `name`
field is read by `get_project`, src/src/gitlab.rs line 308). -/
structure ProjNamespace where
  name : String
deriving DecidableEq

/-- Embeds the fields of a `Project` record that `get_project` and
`high_level_get` read (src/src/gitlab.rs lines 235-268 and 289-322): the
server-internal id, the project name, and the namespace. -/
structure Project where
  id : Int
  name : String
  «namespace» : ProjNamespace
deriving DecidableEq

/-- One request issued by the projects search lister on behalf of
`get_project`: the search filter set on the builder and the `page` /
`per_page` pagination parameters passed to the HTTP layer (`none` when the
parameter is absent from the request, leaving the server's default). -/
structure PageRequest where
  search : String
  page : Option Nat
  per_page : Option Nat
deriving DecidableEq

/-- Embeds the page loop of `GitLab::get_project` (src/src/gitlab.rs lines
289-322) against an abstract search server mapping each issued request to the
project list it returns.  Each iteration evaluates
`self.projects().search(name.to_string()).list()`: per the lister contract,
`list()` issues one request carrying the builder's search filter and no
pagination parameters (the source line 302 carries the comment
"FIXME: Use list_paginated()", and the local `pagination_page` bumped at line
315 is never passed to the request).  The iteration stops when a project with
the exact namespace and name is found or when the page holds fewer than
`pagination_per_page = 20` items.  The loop has no static bound, so it is run
on explicit fuel; `none` means the fuel was exhausted before the loop
terminated.  On termination the result is the found project (if any) together
with the list of requests issued. -/
def get_project_loop (server : PageRequest → List Project)
    («namespace» name : String) :
    Nat → Nat → Option (Option Project × List PageRequest)
  | _page, 0 => none
  | page, fuel + 1 =>
    let req : PageRequest := ⟨name, none, none⟩
    let projects := server req
    let nb_projects_found := projects.length
    let found_project := projects.find?
      (fun p => p.«namespace».name == «namespace» && p.name == name)
    if found_project.isSome ∨ nb_projects_found < 20 then
      some (found_project, [req])
    else
      (get_project_loop server «namespace» name (page + 1) fuel).map
        (fun r => (r.1, req :: r.2))

/-- Embeds the result handling of `GitLab::get_project` (src/src/gitlab.rs
lines 318-321) on top of `get_project_loop`: a found project is returned,
otherwise the call fails with a not-found error. -/
def get_project (server : PageRequest → List Project)
    («namespace» name : String) (fuel : Nat) :
    Option (Except String Project × List PageRequest) :=
  (get_project_loop server «namespace» name 1 fuel).map
    (fun r => (match r.1 with
      | none => .error ("Project '" ++ «namespace» ++ "/" ++ name ++ "' not found!")
      | some p => .ok p, r.2))

/-- Embeds the page loop of `GitLab::high_level_get` (src/src/gitlab.rs lines
241-265), the iid-resolver shared by `get_issue` and `get_merge_request`,
given an already-resolved project.  `src` is the abstract page source: `src
page` is what `f(project.id).list_paginated(page, 20)` returns for the
requested page (the source fixes `pagination_per_page = 20` at line 243 and
starts at `pagination_page = 1`).  `iidOf` reads the `iid()` accessor of the
`GitLabItem` trait.  On each page the items are scanned for the requested
iid; the loop stops when a match is found or the page holds fewer than 20
items, and otherwise bumps the page.  The loop has no static bound, so it is
run on explicit fuel; `none` means fuel exhaustion.  On termination the
result is the found item (if any) together with the number of page requests
issued. -/
def high_level_loop {α : Type} (iidOf : α → Int) (src : Nat → List α)
    (iid : Int) : Nat → Nat → Option (Option α × Nat)
  | _page, 0 => none
  | page, fuel + 1 =>
    let found_items := src page
    let nb_found := found_items.length
    let found := found_items.find? (fun item => iidOf item == iid)
    if found.isSome ∨ nb_found < 20 then
      some (found, 1)
    else
      (high_level_loop iidOf src iid (page + 1) fuel).map
        (fun r => (r.1, r.2 + 1))

/-- Embeds the result handling of `GitLab::high_level_get` (src/src/gitlab.rs
lines 267-270) on top of `high_level_loop`: a found item is returned,
otherwise the call fails with a not-found error.  The pair's second component
is the number of page requests the loop issued. -/
def high_level_get {α : Type} (iidOf : α → Int) (src : Nat → List α)
    (iid : Int) (fuel : Nat) : Option (Except String α × Nat) :=
  (high_level_loop iidOf src iid 1 fuel).map
    (fun r => (match r.1 with
      | none => .error "Item not found!"
      | some item => .ok item, r.2))

/-! Helper notions shared by the theorems. -/

/-- The "&"-joined concatenation of a list of query fragments. -/
def joinAmp : List String → String
  | [] => ""
  | [s] => s
  | s :: rest => s ++ "&" ++ joinAmp rest

/-- The declaration-order fragment list of a merge-requests filter set:
iid, state, order_by, sort, keeping only the present filters. -/
def mrFragments (i : MergeRequests.MergeRequestsListerInternal) : List String :=
  [i.iid.map MergeRequests.iidFragment,
   i.state.map (fun s => "state=" ++ MergeRequests.stateStr s),
   i.order_by.map (fun o => "order_by=" ++ MergeRequests.orderByStr o),
   i.sort.map (fun s => "sort=" ++ sortStr s)].filterMap id

/-- The fluent setters of the merge-requests lister, as explicit operations
(src/src/merge_requests/mod.rs lines 172-191), so that a chain of setter
calls can be reordered. -/
inductive MRSetter
  | setIid (v : List Int)
  | setState (s : MergeRequests.State)
  | setOrderBy (o : MergeRequests.ListingOrderBy)
  | setSort (s : ListingSort)
deriving DecidableEq

/-- The internal field a setter writes (iid = 0, state = 1, order_by = 2,
sort = 3); setters on distinct fields commute. -/
def MRSetter.fieldIdx : MRSetter → Nat
  | .setIid _ => 0
  | .setState _ => 1
  | .setOrderBy _ => 2
  | .setSort _ => 3

/-- Apply one setter call to the lister. -/
def MRSetter.apply (f : MRSetter) (l : MergeRequestsLister) :
    MergeRequestsLister :=
  match f with
  | .setIid v => l.iid v
  | .setState s => l.state s
  | .setOrderBy o => l.order_by o
  | .setSort s => l.sort s

/-- Apply a chain of setter calls left to right, as a fluent chain does. -/
def applySetters (calls : List MRSetter) (l : MergeRequestsLister) :
    MergeRequestsLister :=
  calls.foldl (fun acc f => f.apply acc) l

/-- The project `get_project` is asked to resolve in the C1 scenario. -/
def c1Target : Project := ⟨42, "nm", ⟨"ns"⟩⟩

/-- Twenty search hits that match the substring search for "nm" but not the
exact (namespace, name) pair. -/
def c1Fillers : List Project :=
  (List.range 20).map (fun i => ⟨Int.ofNat i, "nm-other", ⟨"other"⟩⟩)

/-- The C1 search server: page 2 at page size 20 holds the requested
project; a request carrying no pagination parameters returns the first
twenty non-matching search hits (the server's default page). -/
def c1Server (r : PageRequest) : List Project :=
  if r.page = some 2 ∧ r.per_page = some 20 then [c1Target]
  else c1Fillers

/-- The C2 termination scenario's page source: exactly 20 items on pages 1
and 2, three items on page 3, and no item anywhere with the requested iid
999.  Items are represented by their iid alone, as read by the `GitLabItem`
iid accessor. -/
def c2SrcNoMatch : Nat → List Int :=
  fun page =>
    if page = 1 ∨ page = 2 then (List.range 20).map (fun i => Int.ofNat i)
    else if page = 3 then [100, 101, 102]
    else []

/-- The C2 short-circuit scenario's page source: the requested iid 999 is
present on page 1. -/
def c2SrcMatch : Nat → List Int :=
  fun page => if page = 1 then [7, 999, 8] else []

/-- A concrete client value for witness statements. -/
def testGl : GitLab := ⟨⟨"https", "gitlab.com", none⟩, "XXXXXXXXXXXXXXXXXXXX"⟩

/-- `iidArrayLoop` with split char "&" appends the "&"-joined `iid[]=`
fragments to its accumulator. -/
lemma iidArrayLoop_eq_joinAmp :
    ∀ (l : List Int) (q : String), l ≠ [] →
      MergeRequests.iidArrayLoop l q "&"
        = q ++ "&" ++ joinAmp (l.map (fun v => "iid[]=" ++ toString v)) := by
  intro l
  induction l with
  | nil => intro q h; exact absurd rfl h
  | cons a rest ih =>
    intro q _
    cases rest with
    | nil =>
      simp only [MergeRequests.iidArrayLoop, joinAmp, List.map_cons,
        List.map_nil, String.append_assoc]
    | cons b rest2 =>
      have step : MergeRequests.iidArrayLoop (a :: b :: rest2) q "&"
          = MergeRequests.iidArrayLoop (b :: rest2)
              (q ++ "&" ++ "iid[]=" ++ toString a) "&" := rfl
      rw [step, ih _ (by simp)]
      simp only [List.map_cons, joinAmp, String.append_assoc]

/-- No '/' survives `replaceSlashChars`. -/
lemma any_slash_replaceSlashChars :
    ∀ cs : List Char,
      (Projects.replaceSlashChars cs).any (fun c => c == '/') = false := by
  intro cs
  induction cs with
  | nil => rfl
  | cons c cs ih =>
    by_cases hc : c = '/'
    · subst hc
      simp [Projects.replaceSlashChars, ih]
    · simp [Projects.replaceSlashChars, ih, hc]

end GitlabApi

namespace GitlabApi

/-! The claims. -/

/-- C5: for a lister with no filter set, `build_query` returns exactly the
bare resource path, with no '?' and no trailing separator: the merge-requests
lister with every option `None` yields "projects/{id}/merge_requests", and
the projects lister with every option `None` and an empty search string
yields "projects". -/
theorem c5_no_filters_bare_path :
    (∀ (gl : GitLab) (id : Int),
      (MergeRequestsLister.new gl id).build_query
        = "projects/" ++ toString id ++ "/merge_requests")
    ∧ Projects.Listing.new.build_query = "projects" := by
  constructor
  · intro gl id
    simp [MergeRequestsLister.new, MergeRequestsLister.build_query,
      MergeRequests.build_query, pushFragment]
  · rfl

/-- C6: the by-id project lister percent-encodes each '/' of a
namespace/name identifier as "%2F": the encoded identifier contains no '/'
at all, and "group/project" yields the query "projects/group%2Fproject". -/
theorem c6_namespace_path_percent_encodes_slash :
    (∀ s : String, (Projects.replaceSlash s).data.any (fun c => c == '/') = false)
    ∧ Projects.idBuildQuery (.NamespaceProject "group/project")
        = "projects/group%2Fproject" := by
  constructor
  · intro s
    exact any_slash_replaceSlashChars s.data
  · decide

/-- C9: `list_paginated(page, per_page)` leaves the builder completely
unchanged: the lister value the caller continues with is the receiver itself,
its `build_query` and `list` behave as if `list_paginated` had never been
called, and the pagination override is used only in the URL of this one
request (the query string itself is the builder's unchanged `build_query`). -/
theorem c9_list_paginated_preserves_builder {α : Type}
    (l : MergeRequestsLister) (fetch : String → Except String α)
    (page per_page : Nat) :
    (l.list_paginated fetch page per_page).2 = l
    ∧ (l.list_paginated fetch page per_page).2.build_query = l.build_query
    ∧ (l.list_paginated fetch page per_page).2.list fetch = l.list fetch
    ∧ (l.list_paginated fetch page per_page).1
        = fetch (l.gl.requestUrl l.build_query (some page) (some per_page)) :=
  ⟨rfl, rfl, rfl, rfl⟩

/-- C10: the Debug formatting of a client is independent of its private
token — two clients that differ only in the token format identically — and
the output always ends with the fixed twenty-'X' mask in the token position,
so the token's value never appears. -/
theorem c10_debug_output_token_independent :
    (∀ (u : Url) (t₁ t₂ : String),
      GitLab.debugFmt ⟨u, t₁⟩ = GitLab.debugFmt ⟨u, t₂⟩)
    ∧ (∀ g : GitLab, ∃ pre : String,
      g.debugFmt = pre ++ ", private_token: XXXXXXXXXXXXXXXXXXXX \x7d") := by
  constructor
  · intro u t₁ t₂
    rfl
  · intro g
    exact ⟨_, rfl⟩

/-- C4: the merge-requests lister's multi-valued `iid` filter serializes a
single value `v` as "iid=v", and two or more values as repeated
"iid[]=v1&iid[]=v2&..." in the caller-supplied order. -/
theorem c4_iid_single_vs_array :
    (∀ (id v : Int),
      MergeRequests.build_query id ⟨some [v], none, none, none⟩
        = "projects/" ++ toString id ++ "/merge_requests?iid=" ++ toString v)
    ∧ (∀ (id : Int) (l : List Int), 2 ≤ l.length →
      MergeRequests.build_query id ⟨some l, none, none, none⟩
        = "projects/" ++ toString id ++ "/merge_requests?"
          ++ joinAmp (l.map (fun v => "iid[]=" ++ toString v))) := by
  constructor
  · intro id v
    rw [show ("/merge_requests?iid=" : String)
        = "/merge_requests" ++ "?" ++ "" ++ "iid=" from rfl]
    simp only [MergeRequests.build_query, MergeRequests.iidFragment,
      pushFragment, Option.map_some', Option.map_none', String.append_assoc]
  · intro id l hl
    obtain ⟨a, b, rest, rfl⟩ : ∃ a b rest, l = a :: b :: rest := by
      match l, hl with
      | a :: b :: rest, _ => exact ⟨a, b, rest, rfl⟩
    have hfrag : MergeRequests.iidFragment (a :: b :: rest)
        = MergeRequests.iidArrayLoop (b :: rest)
            ("" ++ "" ++ "iid[]=" ++ toString a) "&" := rfl
    rw [show MergeRequests.build_query id ⟨some (a :: b :: rest), none, none, none⟩
        = ("projects/" ++ toString id ++ "/merge_requests" ++ "?") ++ ""
          ++ MergeRequests.iidFragment (a :: b :: rest) from rfl,
      hfrag, iidArrayLoop_eq_joinAmp _ _ (by simp),
      show ("/merge_requests?" : String) = "/merge_requests" ++ "?" from rfl]
    simp only [List.map_cons, joinAmp, String.empty_append,
      String.append_assoc]

/-- C4 witness: iid [456, 789] at project 123 serializes as repeated
"iid[]=456&iid[]=789". -/
theorem c4_iid_single_vs_array_witness :
    2 ≤ ([456, 789] : List Int).length
    ∧ MergeRequests.build_query 123 ⟨some [456, 789], none, none, none⟩
      = "projects/" ++ toString (123 : Int) ++ "/merge_requests?"
        ++ joinAmp (([456, 789] : List Int).map
            (fun v => "iid[]=" ++ toString v)) :=
  ⟨by decide, c4_iid_single_vs_array.2 123 [456, 789] (by decide)⟩

/-- C7: every request URL has the shape
scheme ++ "://" ++ host ++ optional ":port" ++ "/api/v3/" ++ query (API
version fixed at 3), followed by the private_token authentication parameter
appended after all filter parameters of the query, followed by page and
per_page exactly when pagination is configured, in that order. -/
theorem c7_request_url_shape (g : GitLab) (query : String)
    (page per_page : Option Nat) :
    g.requestUrl query page per_page
      = g.url.scheme ++ "://" ++ g.url.host
        ++ (match g.url.port with
            | none => ""
            | some p => ":" ++ toString p)
        ++ "/api/v3/" ++ query
        ++ (if query.data.contains '?' then "&" else "?")
        ++ "private_token=" ++ g.private_token
        ++ (match page with
            | none => ""
            | some p => "&page=" ++ toString p)
        ++ (match per_page with
            | none => ""
            | some pp => "&per_page=" ++ toString pp) := by
  have hv3 : ("/api/v" ++ toString API_VERSION ++ "/") = "/api/v3/" := rfl
  cases page <;> cases per_page <;>
    simp only [GitLab.requestUrl, GitLab.build_url, urlToString, hv3,
      String.append_empty, String.append_assoc]

/-- C8: client construction fails fast with a configuration error when the
private token's length is not exactly 20 (19 and 21 fail, 20 succeeds) or
when the host starts or ends with a dot (".gitlab.com" and "gitlab.com."
fail); host "gitlab.com" with a 20-character token succeeds. -/
theorem c8_construction_boundaries (token : String) :
    (token.length = 19 → (GitLab.new "gitlab.com" token).isOk = false)
    ∧ (token.length = 21 → (GitLab.new "gitlab.com" token).isOk = false)
    ∧ (token.length = 20 → (GitLab.new "gitlab.com" token).isOk = true)
    ∧ (token.length = 20 → (GitLab.new ".gitlab.com" token).isOk = false)
    ∧ (token.length = 20 → (GitLab.new "gitlab.com." token).isOk = false) := by
  have hok : validate_url "https" "gitlab.com" 443
      = .ok ⟨"https", "gitlab.com", none⟩ := rfl
  have hbad1 : validate_url "https" ".gitlab.com" 443
      = .error "invalid domain: '.gitlab.com' cannot start with a dot" := rfl
  have hbad2 : validate_url "https" "gitlab.com." 443
      = .error "invalid domain: 'gitlab.com.' cannot end with a dot" := rfl
  refine ⟨fun h => ?_, fun h => ?_, fun h => ?_, fun h => ?_, fun h => ?_⟩ <;>
    simp [GitLab.new, GitLab._new, h, hok, hbad1, hbad2, Except.isOk,
      Except.toBool]

/-- C8 witness: the boundary checks at concrete tokens of lengths 19, 20
and 21. -/
theorem c8_construction_boundaries_witness :
    (GitLab.new "gitlab.com" "XXXXXXXXXXXXXXXXXXX").isOk = false
    ∧ (GitLab.new "gitlab.com" "XXXXXXXXXXXXXXXXXXXXX").isOk = false
    ∧ (GitLab.new "gitlab.com" "XXXXXXXXXXXXXXXXXXXX").isOk = true
    ∧ (GitLab.new ".gitlab.com" "XXXXXXXXXXXXXXXXXXXX").isOk = false
    ∧ (GitLab.new "gitlab.com." "XXXXXXXXXXXXXXXXXXXX").isOk = false :=
  ⟨(c8_construction_boundaries "XXXXXXXXXXXXXXXXXXX").1 (by decide),
   (c8_construction_boundaries "XXXXXXXXXXXXXXXXXXXXX").2.1 (by decide),
   (c8_construction_boundaries "XXXXXXXXXXXXXXXXXXXX").2.2.1 (by decide),
   (c8_construction_boundaries "XXXXXXXXXXXXXXXXXXXX").2.2.2.1 (by decide),
   (c8_construction_boundaries "XXXXXXXXXXXXXXXXXXXX").2.2.2.2 (by decide)⟩

/-- When the unpaginated search request returns a full page of twenty
projects none of which matches exactly, the `get_project` loop re-issues the
identical request forever: it never terminates, whatever the fuel. -/
lemma get_project_loop_stuck (server : PageRequest → List Project)
    («namespace» name : String)
    (hlen : (server ⟨name, none, none⟩).length = 20)
    (hfind : (server ⟨name, none, none⟩).find?
      (fun p => p.«namespace».name == «namespace» && p.name == name) = none) :
    ∀ (fuel page : Nat),
      get_project_loop server «namespace» name page fuel = none := by
  intro fuel
  induction fuel with
  | zero => intro page; rfl
  | succ n ih =>
    intro page
    simp only [get_project_loop, hlen, hfind]
    simp [ih]

/-- C1: refuted on the code — the claim describes the intended paging
(matching the source's own "FIXME: Use list_paginated()" comment), but
`get_project` calls `list()` without pagination, so after a full
non-matching page it re-issues the identical unpaginated request instead of
fetching page 2 at page size 20.  Against a server whose page 2 (at
per_page 20) contains exactly the requested project, the resolver never
terminates — for every fuel it is still looping — even though a single
request for page 2 would find the project. -/
theorem c1_get_project_never_advances_pages :
    (∀ fuel : Nat, get_project c1Server "ns" "nm" fuel = none)
    ∧ (c1Server ⟨"nm", some 2, some 20⟩).find?
        (fun p => p.«namespace».name == "ns" && p.name == "nm")
      = some c1Target := by
  constructor
  · intro fuel
    rw [get_project, get_project_loop_stuck c1Server "ns" "nm"
      (by decide) (by decide)]
    rfl
  · decide

/-- Page-loop invariant for `high_level_loop`: starting at page `p`, if the
next `m` pages are full (20 items) without a match and page `p + m` stops
the loop (match found or underfull), the loop issues exactly `m + 1`
requests and returns the scan result of page `p + m`. -/
lemma high_level_loop_spec {α : Type} (iidOf : α → Int) (src : Nat → List α)
    (iid : Int) :
    ∀ (m p fuel : Nat),
      (∀ j, j < m → (src (p + j)).length = 20
        ∧ (src (p + j)).find? (fun item => iidOf item == iid) = none) →
      (((src (p + m)).find? (fun item => iidOf item == iid)).isSome = true
        ∨ (src (p + m)).length < 20) →
      m + 1 ≤ fuel →
      high_level_loop iidOf src iid p fuel
        = some ((src (p + m)).find? (fun item => iidOf item == iid), m + 1) := by
  intro m
  induction m with
  | zero =>
    intro p fuel _hfull hstop hfuel
    match fuel, hfuel with
    | f + 1, _ =>
      rw [Nat.add_zero] at hstop
      simp only [high_level_loop]
      rw [if_pos hstop]
      simp
  | succ m ih =>
    intro p fuel hfull hstop hfuel
    match fuel, hfuel with
    | f + 1, hfuel =>
      obtain ⟨hlen0, hfind0⟩ := hfull 0 (Nat.succ_pos m)
      rw [Nat.add_zero] at hlen0 hfind0
      have hrec := ih (p + 1) f
        (fun j hj => by
          have := hfull (j + 1) (by omega)
          rwa [show p + (j + 1) = p + 1 + j by omega] at this)
        (by rwa [show p + 1 + m = p + (m + 1) by omega])
        (by omega)
      simp only [high_level_loop, hlen0, hfind0]
      rw [if_neg (by simp)]
      rw [hrec]
      simp only [Option.map_some']
      rw [show p + 1 + m = p + (m + 1) by omega]

/-- C2: the iid-resolver page loop shared by `get_issue` and
`get_merge_request` (given an already-resolved project) issues page requests
1, 2, ..., k, where k is the first page that either contains an item with
the requested iid or holds fewer than `per_page = 20` items; it returns the
first matching item on page k if one exists, and otherwise a not-found
error.  `high_level_get ... = some (result, k)` states that the loop
terminated within the given fuel, issued exactly k requests, and produced
`result`. -/
theorem c2_iid_resolver_requests {α : Type} (iidOf : α → Int)
    (src : Nat → List α) (iid : Int) (k fuel : Nat)
    (hk : 1 ≤ k)
    (hfull : ∀ j, j < k → 1 ≤ j →
      (src j).length = 20
        ∧ (src j).find? (fun item => iidOf item == iid) = none)
    (hstop : ((src k).find? (fun item => iidOf item == iid)).isSome = true
      ∨ (src k).length < 20)
    (hfuel : k ≤ fuel) :
    high_level_get iidOf src iid fuel
      = some ((match (src k).find? (fun item => iidOf item == iid) with
          | none => Except.error "Item not found!"
          | some item => Except.ok item), k) := by
  obtain ⟨m, rfl⟩ : ∃ m, k = m + 1 := ⟨k - 1, by omega⟩
  have hloop := high_level_loop_spec iidOf src iid m 1 fuel
    (fun j hj => by
      have := hfull (j + 1) (by omega) (by omega)
      rwa [show (1 : Nat) + j = j + 1 by omega])
    (by rwa [show (1 : Nat) + m = m + 1 by omega])
    (by omega)
  rw [high_level_get, hloop]
  simp only [Option.map_some']
  rw [show (1 : Nat) + m = m + 1 by omega]

/-- C2 witness: on pages of exactly 20 items on pages 1 and 2 and 3 items on
page 3 with no match anywhere, the resolver issues exactly 3 requests and
fails with the not-found error; with a match on page 1 it issues exactly 1
request and returns the match. -/
theorem c2_iid_resolver_requests_witness :
    high_level_get (fun x => x) c2SrcNoMatch 999 3
      = some (Except.error "Item not found!", 3)
    ∧ high_level_get (fun x => x) c2SrcMatch 999 5
      = some (Except.ok 999, 1) :=
  ⟨c2_iid_resolver_requests (fun x => x) c2SrcNoMatch 999 3 3
      (by decide) (by decide) (by decide) (by decide),
   c2_iid_resolver_requests (fun x => x) c2SrcMatch 999 1 5
      (by decide) (by decide) (by decide) (by decide)⟩

/-- Setters that write distinct fields commute. -/
lemma MRSetter.apply_comm (a b : MRSetter) (h : a.fieldIdx ≠ b.fieldIdx)
    (l : MergeRequestsLister) : b.apply (a.apply l) = a.apply (b.apply l) := by
  cases a <;> cases b <;> first | rfl | (exact absurd rfl h)

/-- Applying a chain of setters on pairwise-distinct fields is invariant
under reordering the chain. -/
lemma applySetters_perm :
    ∀ {l₁ l₂ : List MRSetter}, l₁.Perm l₂ →
      l₁.Pairwise (fun a b => a.fieldIdx ≠ b.fieldIdx) →
      ∀ x : MergeRequestsLister, applySetters l₁ x = applySetters l₂ x := by
  intro l₁ l₂ hp
  induction hp with
  | nil =>
    intro _ x
    rfl
  | cons a _p ih =>
    intro hd x
    have ht := List.Pairwise.of_cons hd
    simp only [applySetters, List.foldl_cons] at ih ⊢
    exact ih ht (a.apply x)
  | swap a b l' =>
    intro hd x
    have hba : b.fieldIdx ≠ a.fieldIdx :=
      (List.pairwise_cons.mp hd).1 a (List.mem_cons_self a l')
    simp only [applySetters, List.foldl_cons]
    rw [MRSetter.apply_comm b a hba x]
  | trans p₁ _p₂ ih₁ ih₂ =>
    intro hd x
    have hd₂ := (p₁.pairwise_iff (fun h => Ne.symm h)).mp hd
    rw [ih₁ hd x, ih₂ hd₂ x]

/-- `build_query` is the base path followed by the present fragments in
declaration order, joined by "&" behind a "?". -/
lemma build_query_canonical (id : Int)
    (i : MergeRequests.MergeRequestsListerInternal) :
    MergeRequests.build_query id i
      = "projects/" ++ toString id ++ "/merge_requests"
        ++ (if mrFragments i = [] then ""
            else "?" ++ joinAmp (mrFragments i)) := by
  obtain ⟨iid, st, ob, so⟩ := i
  cases iid <;> cases st <;> cases ob <;> cases so <;>
    simp [MergeRequests.build_query, mrFragments, pushFragment, joinAmp,
      String.append_assoc] <;>
    rw [show ("/merge_requests?" : String) = "/merge_requests" ++ "?" from rfl] <;>
    simp only [String.append_assoc]

/-- C3: `build_query` of the merge-requests lister emits the present filters
in the fixed declaration order iid, state, order_by, sort: the output is
invariant under reordering a chain of setters on distinct fields, it always
equals the base path plus the declaration-order fragments, and the
end-to-end example — setting iid [456, 789], then sort Asc, then order_by
CreatedAt on project 123 — yields exactly
"projects/123/merge_requests?iid[]=456&iid[]=789&order_by=created_at&sort=asc". -/
theorem c3_build_query_fixed_declaration_order :
    (∀ (l₁ l₂ : List MRSetter), l₁.Perm l₂ →
      l₁.Pairwise (fun a b => a.fieldIdx ≠ b.fieldIdx) →
      ∀ x : MergeRequestsLister,
        (applySetters l₁ x).build_query = (applySetters l₂ x).build_query)
    ∧ (∀ (id : Int) (i : MergeRequests.MergeRequestsListerInternal),
      MergeRequests.build_query id i
        = "projects/" ++ toString id ++ "/merge_requests"
          ++ (if mrFragments i = [] then ""
              else "?" ++ joinAmp (mrFragments i)))
    ∧ (∀ gl : GitLab,
      (applySetters
          [.setIid [456, 789], .setSort .Asc, .setOrderBy .CreatedAt]
          (MergeRequestsLister.new gl 123)).build_query
        = "projects/123/merge_requests?iid[]=456&iid[]=789&order_by=created_at&sort=asc") := by
  refine ⟨?_, ?_, ?_⟩
  · intro l₁ l₂ hp hd x
    rw [applySetters_perm hp hd x]
  · intro id i
    exact build_query_canonical id i
  · intro gl
    rfl

/-- C3 witness: calling `sort` before `order_by` yields the same query as
calling `order_by` before `sort`, at a concrete lister. -/
theorem c3_build_query_fixed_declaration_order_witness :
    ([MRSetter.setSort .Asc, MRSetter.setOrderBy .CreatedAt].Perm
        [MRSetter.setOrderBy .CreatedAt, MRSetter.setSort .Asc])
    ∧ (applySetters [MRSetter.setSort .Asc, MRSetter.setOrderBy .CreatedAt]
          (MergeRequestsLister.new testGl 123)).build_query
      = (applySetters [MRSetter.setOrderBy .CreatedAt, MRSetter.setSort .Asc]
          (MergeRequestsLister.new testGl 123)).build_query :=
  ⟨by decide,
   c3_build_query_fixed_declaration_order.1 _ _ (by decide) (by decide) _⟩

end GitlabApi
